import Mathlib

/-!
# Verification of the bridge worker payload-transformation engine

Shallow embedding of src/temporalio/bridge/worker.py: the payload
conversions, the codec application helpers, the activation decoder, the
completion encoder, the retry-policy wire conversion and the worker
shutdown lifecycle.

Modelling conventions:
* Protobuf `Payload` messages become records with a metadata association
  list and a data blob (list of bytes as naturals).  `BridgePayload` and
  `ApiPayload` mirror the two distinct protobuf types of the source.
* The payload codec (an external collaborator) is a pair of pure
  functions on payload lists; the failure codec is a pure function on an
  opaque `Failure`.  Awaited codec invocations are recorded in an
  explicit trace (`List CodecCall`): the Python code awaits each call to
  completion before the next, so the sequential trace is the faithful
  image of its effect order.
* In-place protobuf mutation becomes explicit state passing: every
  engine function returns the (possibly partially) updated structure,
  the trace of codec calls made so far, and `Option EngineError`; a
  `some` error means a Python exception escaped at that point, leaving
  the structure as mutated up to that point.
* The only engine-raised error reachable in this model is the
  `IndexError` from `(await cb([...]))[0]` when a codec returns an empty
  list on the single-payload path.
-/

/-- An API payload (`temporalio.api.common.v1.Payload`): a string-keyed
metadata mapping and a binary data blob. -/
structure ApiPayload where
  metadata : List (String × List Nat)
  data : List Nat
deriving DecidableEq, Repr

/-- A bridge payload (`temporalio.bridge.proto.common.Payload`): same
fields as the API payload but a distinct wire type. -/
structure BridgePayload where
  metadata : List (String × List Nat)
  data : List Nat
deriving DecidableEq, Repr

/-- An opaque failure object; its interior (message, stack trace,
embedded payloads, chained cause) is transformed by the external failure
codec, which this module only invokes. -/
structure Failure where
  info : Nat
deriving DecidableEq, Repr

/-- One awaited codec invocation, in the order the engine performs them.
`payloadCall` records the exact argument list handed to the payload
codec; `failureCall` records the failure handed to the failure codec
(`temporalio.exceptions.decode_failure` / `encode_failure`). -/
inductive CodecCall where
  | payloadCall (args : List ApiPayload)
  | failureCall (f : Failure)
deriving DecidableEq, Repr

/-- Errors the engine itself can raise in this model. `indexError` is
the Python `IndexError` from `[0]` on an empty codec result. -/
inductive EngineError where
  | indexError
deriving DecidableEq, Repr

/-- The pluggable payload codec collaborator
(`temporalio.converter.PayloadCodec`): decode and encode directions. -/
structure PayloadCodec where
  decode : List ApiPayload → List ApiPayload
  encode : List ApiPayload → List ApiPayload

/-- The failure codec collaborator (`temporalio.exceptions`
`decode_failure` / `encode_failure`), opaque to this module. -/
structure FailureCodec where
  decodeFailure : Failure → Failure
  encodeFailure : Failure → Failure

/-- `from_bridge_payload`: convert a bridge payload to an API payload. -/
def from_bridge_payload (payload : BridgePayload) : ApiPayload :=
  { metadata := payload.metadata, data := payload.data }

/-- `from_bridge_payloads`: convert bridge payloads element-wise. -/
def from_bridge_payloads (payloads : List BridgePayload) : List ApiPayload :=
  payloads.map from_bridge_payload

/-- `to_bridge_payload`: convert an API payload to a bridge payload. -/
def to_bridge_payload (payload : ApiPayload) : BridgePayload :=
  { metadata := payload.metadata, data := payload.data }

/-- `to_bridge_payloads`: convert API payloads element-wise. -/
def to_bridge_payloads (payloads : List ApiPayload) : List BridgePayload :=
  payloads.map to_bridge_payload

/-- `_apply_to_bridge_payloads`: if the container is empty, return
without calling the codec; otherwise invoke the callback once on the
whole converted list and replace the container's contents (`del
payloads[:]` then `extend`) with the converted result, whatever its
length.  No length check is performed. -/
def applyToBridgePayloads (payloads : List BridgePayload)
    (cb : List ApiPayload → List ApiPayload) :
    List BridgePayload × List CodecCall × Option EngineError :=
  if payloads.length = 0 then (payloads, [], none)
  else
    (to_bridge_payloads (cb (from_bridge_payloads payloads)),
     [CodecCall.payloadCall (from_bridge_payloads payloads)], none)

/-- `_apply_to_bridge_payload`: invoke the callback on a one-element
batch and take element `[0]` of the result.  An empty result raises
`IndexError` before any mutation; otherwise the payload's metadata is
cleared and updated and its data overwritten from the first result
element (extra elements are silently ignored). -/
def applyToBridgePayload (payload : BridgePayload)
    (cb : List ApiPayload → List ApiPayload) :
    BridgePayload × List CodecCall × Option EngineError :=
  match cb [from_bridge_payload payload] with
  | [] =>
      (payload, [CodecCall.payloadCall [from_bridge_payload payload]],
       some EngineError.indexError)
  | newPayload :: _ =>
      ({ metadata := newPayload.metadata, data := newPayload.data },
       [CodecCall.payloadCall [from_bridge_payload payload]], none)

/-- `_decode_bridge_payloads`. -/
def decodeBridgePayloads (payloads : List BridgePayload)
    (codec : PayloadCodec) :
    List BridgePayload × List CodecCall × Option EngineError :=
  applyToBridgePayloads payloads codec.decode

/-- `_decode_bridge_payload`. -/
def decodeBridgePayload (payload : BridgePayload) (codec : PayloadCodec) :
    BridgePayload × List CodecCall × Option EngineError :=
  applyToBridgePayload payload codec.decode

/-- `_encode_bridge_payloads`. -/
def encodeBridgePayloads (payloads : List BridgePayload)
    (codec : PayloadCodec) :
    List BridgePayload × List CodecCall × Option EngineError :=
  applyToBridgePayloads payloads codec.encode

/-- `_encode_bridge_payload`. -/
def encodeBridgePayload (payload : BridgePayload) (codec : PayloadCodec) :
    BridgePayload × List CodecCall × Option EngineError :=
  applyToBridgePayload payload codec.encode

/-! ## Activation data model

Jobs mirror the `WorkflowActivationJob` oneof variants the decoder
matches on (`decode_activation`, worker.py lines 249-313).  Each variant
carries the payload-bearing fields the decoder touches plus an `extra`
field standing for all its untouched structural fields (ids, timestamps,
options); `other` stands for any variant outside the matched set. -/

/-- The nested Outcome oneof of `resolve_activity.result` /
`resolve_child_workflow_execution.result`: cancelled / completed (with
optional result payload) / failed, plus unmatched variants. -/
inductive Outcome where
  | cancelled (failure : Failure)
  | completed (result : Option BridgePayload)
  | failed (failure : Failure)
  | other (tag : Nat)
deriving DecidableEq, Repr

/-- The oneof of `resolve_child_workflow_execution_start`: only the
`cancelled` branch is matched by the decoder. -/
inductive ChildStart where
  | cancelled (failure : Failure)
  | other (tag : Nat)
deriving DecidableEq, Repr

/-- A `WorkflowActivationJob` variant as matched by `decode_activation`.
`startWorkflow` memo values are API payloads (the source notes the memo
map uses API payloads, not bridge payloads). -/
inductive Job where
  | cancelWorkflow (details : List BridgePayload) (extra : Nat)
  | queryWorkflow (arguments : List BridgePayload) (extra : Nat)
  | resolveActivity (result : Outcome) (extra : Nat)
  | resolveChildWorkflowExecution (result : Outcome) (extra : Nat)
  | resolveChildWorkflowExecutionStart (status : ChildStart) (extra : Nat)
  | resolveRequestCancelExternalWorkflow (failure : Option Failure) (extra : Nat)
  | resolveSignalExternalWorkflow (failure : Option Failure) (extra : Nat)
  | signalWorkflow (input : List BridgePayload) (extra : Nat)
  | startWorkflow (arguments : List BridgePayload)
      (continuedFailure : Option Failure)
      (memo : List (String × ApiPayload)) (extra : Nat)
  | other (tag : Nat)
deriving DecidableEq, Repr

/-- A `WorkflowActivation`: an ordered job list plus untouched
structural fields (`run_id`, timestamp, `is_replaying`, ...). -/
structure WorkflowActivation where
  jobs : List Job
  extra : Nat
deriving DecidableEq, Repr

/-! ## Completion data model (`encode_completion`, lines 321-369). -/

/-- The `respond_to_query` result oneof: failed / succeeded (optional
response payload) / unmatched. -/
inductive QueryResult where
  | failed (failure : Failure)
  | succeeded (response : Option BridgePayload)
  | other (tag : Nat)
deriving DecidableEq, Repr

/-- A `WorkflowCommand` variant as matched by `encode_completion`.
Memo values on the outbound side are bridge payloads. -/
inductive Command where
  | completeWorkflowExecution (result : Option BridgePayload) (extra : Nat)
  | continueAsNewWorkflowExecution (arguments : List BridgePayload)
      (memo : List (String × BridgePayload)) (extra : Nat)
  | failWorkflowExecution (failure : Failure) (extra : Nat)
  | respondToQuery (result : QueryResult) (extra : Nat)
  | scheduleActivity (arguments : List BridgePayload) (extra : Nat)
  | scheduleLocalActivity (arguments : List BridgePayload) (extra : Nat)
  | signalExternalWorkflowExecution (args : List BridgePayload) (extra : Nat)
  | startChildWorkflowExecution (input : List BridgePayload)
      (memo : List (String × BridgePayload)) (extra : Nat)
  | other (tag : Nat)
deriving DecidableEq, Repr

/-- The top-level oneof of a `WorkflowActivationCompletion`: `failed`
carries a failure, `successful` an ordered command list; `unset` models
a completion with neither field set (both `HasField` checks false). -/
inductive CompletionStatus where
  | failed (failure : Failure)
  | successful (commands : List Command)
  | unset (tag : Nat)
deriving DecidableEq, Repr

/-- A `WorkflowActivationCompletion`: its status oneof plus untouched
structural fields (`run_id`). -/
structure WorkflowActivationCompletion where
  status : CompletionStatus
  extra : Nat
deriving DecidableEq, Repr

/-! ## The decoder (`decode_activation`). -/

/-- One memo value decode (worker.py lines 308-313): the codec is
invoked on the one-element batch `[val]` and element `[0]` of the result
replaces the value in place; an empty result raises `IndexError` before
mutation.  Memo values are API payloads, used directly. -/
def decodeMemoValue (val : ApiPayload) (codec : PayloadCodec) :
    ApiPayload × List CodecCall × Option EngineError :=
  match codec.decode [val] with
  | [] => (val, [CodecCall.payloadCall [val]], some EngineError.indexError)
  | newPayload :: _ =>
      ({ metadata := newPayload.metadata, data := newPayload.data },
       [CodecCall.payloadCall [val]], none)

/-- The `for val in job.start_workflow.memo.fields.values()` loop:
values in mapping order, stopping (exception propagation) at the first
error and leaving later values untouched. -/
def decodeMemo (memo : List (String × ApiPayload)) (codec : PayloadCodec) :
    List (String × ApiPayload) × List CodecCall × Option EngineError :=
  match memo with
  | [] => ([], [], none)
  | (k, v) :: rest =>
      match decodeMemoValue v codec with
      | (v', t, some e) => ((k, v') :: rest, t, some e)
      | (v', t, none) =>
          match decodeMemo rest codec with
          | (rest', t2, e2) => ((k, v') :: rest', t ++ t2, e2)

/-- Decode one job, following the `if`/`elif` chain of
`decode_activation` variant by variant. -/
def decodeJob (job : Job) (codec : PayloadCodec) (fcodec : FailureCodec) :
    Job × List CodecCall × Option EngineError :=
  match job with
  | Job.cancelWorkflow details extra =>
      match decodeBridgePayloads details codec with
      | (d, t, e) => (Job.cancelWorkflow d extra, t, e)
  | Job.queryWorkflow arguments extra =>
      match decodeBridgePayloads arguments codec with
      | (a, t, e) => (Job.queryWorkflow a extra, t, e)
  | Job.resolveActivity result extra =>
      match result with
      | Outcome.cancelled f =>
          (Job.resolveActivity (Outcome.cancelled (fcodec.decodeFailure f)) extra,
           [CodecCall.failureCall f], none)
      | Outcome.completed none =>
          (Job.resolveActivity (Outcome.completed none) extra, [], none)
      | Outcome.completed (some r) =>
          match decodeBridgePayload r codec with
          | (r', t, e) =>
              (Job.resolveActivity (Outcome.completed (some r')) extra, t, e)
      | Outcome.failed f =>
          (Job.resolveActivity (Outcome.failed (fcodec.decodeFailure f)) extra,
           [CodecCall.failureCall f], none)
      | Outcome.other tag =>
          (Job.resolveActivity (Outcome.other tag) extra, [], none)
  | Job.resolveChildWorkflowExecution result extra =>
      match result with
      | Outcome.cancelled f =>
          (Job.resolveChildWorkflowExecution
            (Outcome.cancelled (fcodec.decodeFailure f)) extra,
           [CodecCall.failureCall f], none)
      | Outcome.completed none =>
          (Job.resolveChildWorkflowExecution (Outcome.completed none) extra,
           [], none)
      | Outcome.completed (some r) =>
          match decodeBridgePayload r codec with
          | (r', t, e) =>
              (Job.resolveChildWorkflowExecution
                (Outcome.completed (some r')) extra, t, e)
      | Outcome.failed f =>
          (Job.resolveChildWorkflowExecution
            (Outcome.failed (fcodec.decodeFailure f)) extra,
           [CodecCall.failureCall f], none)
      | Outcome.other tag =>
          (Job.resolveChildWorkflowExecution (Outcome.other tag) extra, [], none)
  | Job.resolveChildWorkflowExecutionStart status extra =>
      match status with
      | ChildStart.cancelled f =>
          (Job.resolveChildWorkflowExecutionStart
            (ChildStart.cancelled (fcodec.decodeFailure f)) extra,
           [CodecCall.failureCall f], none)
      | ChildStart.other tag =>
          (Job.resolveChildWorkflowExecutionStart (ChildStart.other tag) extra,
           [], none)
  | Job.resolveRequestCancelExternalWorkflow failure extra =>
      match failure with
      | some f =>
          (Job.resolveRequestCancelExternalWorkflow
            (some (fcodec.decodeFailure f)) extra,
           [CodecCall.failureCall f], none)
      | none => (Job.resolveRequestCancelExternalWorkflow none extra, [], none)
  | Job.resolveSignalExternalWorkflow failure extra =>
      match failure with
      | some f =>
          (Job.resolveSignalExternalWorkflow
            (some (fcodec.decodeFailure f)) extra,
           [CodecCall.failureCall f], none)
      | none => (Job.resolveSignalExternalWorkflow none extra, [], none)
  | Job.signalWorkflow input extra =>
      match decodeBridgePayloads input codec with
      | (i, t, e) => (Job.signalWorkflow i extra, t, e)
  | Job.startWorkflow arguments continuedFailure memo extra =>
      match decodeBridgePayloads arguments codec with
      | (a, t1, some e) =>
          (Job.startWorkflow a continuedFailure memo extra, t1, some e)
      | (a, t1, none) =>
          let cfStep : Option Failure × List CodecCall :=
            match continuedFailure with
            | some f => (some (fcodec.decodeFailure f), [CodecCall.failureCall f])
            | none => (none, [])
          match decodeMemo memo codec with
          | (memoNew, t3, e3) =>
              (Job.startWorkflow a cfStep.1 memoNew extra,
               t1 ++ cfStep.2 ++ t3, e3)
  | Job.other tag => (Job.other tag, [], none)

/-- The `for job in act.jobs` loop: jobs in list order, an exception
stopping the loop with later jobs untouched. -/
def decodeJobs (jobs : List Job) (codec : PayloadCodec)
    (fcodec : FailureCodec) :
    List Job × List CodecCall × Option EngineError :=
  match jobs with
  | [] => ([], [], none)
  | j :: rest =>
      match decodeJob j codec fcodec with
      | (j', t, some e) => (j' :: rest, t, some e)
      | (j', t, none) =>
          match decodeJobs rest codec fcodec with
          | (rest', t2, e2) => (j' :: rest', t ++ t2, e2)

/-- `decode_activation`: decode every job of the activation in place. -/
def decode_activation (act : WorkflowActivation) (codec : PayloadCodec)
    (fcodec : FailureCodec) :
    WorkflowActivation × List CodecCall × Option EngineError :=
  match decodeJobs act.jobs codec fcodec with
  | (jobs', t, e) => ({ act with jobs := jobs' }, t, e)

/-! ## The encoder (`encode_completion`). -/

/-- One outbound memo value encode (`_encode_bridge_payload` applied to
each memo value of continue-as-new / start-child commands), values in
mapping order, stopping at the first error. -/
def encodeMemo (memo : List (String × BridgePayload)) (codec : PayloadCodec) :
    List (String × BridgePayload) × List CodecCall × Option EngineError :=
  match memo with
  | [] => ([], [], none)
  | (k, v) :: rest =>
      match encodeBridgePayload v codec with
      | (v', t, some e) => ((k, v') :: rest, t, some e)
      | (v', t, none) =>
          match encodeMemo rest codec with
          | (rest', t2, e2) => ((k, v') :: rest', t ++ t2, e2)

/-- Encode one command, following the `if`/`elif` chain of
`encode_completion` variant by variant. -/
def encodeCommand (command : Command) (codec : PayloadCodec)
    (fcodec : FailureCodec) :
    Command × List CodecCall × Option EngineError :=
  match command with
  | Command.completeWorkflowExecution result extra =>
      match result with
      | some r =>
          match encodeBridgePayload r codec with
          | (r', t, e) =>
              (Command.completeWorkflowExecution (some r') extra, t, e)
      | none => (Command.completeWorkflowExecution none extra, [], none)
  | Command.continueAsNewWorkflowExecution arguments memo extra =>
      match encodeBridgePayloads arguments codec with
      | (a, t1, some e) =>
          (Command.continueAsNewWorkflowExecution a memo extra, t1, some e)
      | (a, t1, none) =>
          match encodeMemo memo codec with
          | (memoNew, t2, e2) =>
              (Command.continueAsNewWorkflowExecution a memoNew extra,
               t1 ++ t2, e2)
  | Command.failWorkflowExecution f extra =>
      (Command.failWorkflowExecution (fcodec.encodeFailure f) extra,
       [CodecCall.failureCall f], none)
  | Command.respondToQuery result extra =>
      match result with
      | QueryResult.failed f =>
          (Command.respondToQuery (QueryResult.failed (fcodec.encodeFailure f))
            extra, [CodecCall.failureCall f], none)
      | QueryResult.succeeded (some r) =>
          match encodeBridgePayload r codec with
          | (r', t, e) =>
              (Command.respondToQuery (QueryResult.succeeded (some r')) extra,
               t, e)
      | QueryResult.succeeded none =>
          (Command.respondToQuery (QueryResult.succeeded none) extra, [], none)
      | QueryResult.other tag =>
          (Command.respondToQuery (QueryResult.other tag) extra, [], none)
  | Command.scheduleActivity arguments extra =>
      match encodeBridgePayloads arguments codec with
      | (a, t, e) => (Command.scheduleActivity a extra, t, e)
  | Command.scheduleLocalActivity arguments extra =>
      match encodeBridgePayloads arguments codec with
      | (a, t, e) => (Command.scheduleLocalActivity a extra, t, e)
  | Command.signalExternalWorkflowExecution args extra =>
      match encodeBridgePayloads args codec with
      | (a, t, e) => (Command.signalExternalWorkflowExecution a extra, t, e)
  | Command.startChildWorkflowExecution input memo extra =>
      match encodeBridgePayloads input codec with
      | (i, t1, some e) =>
          (Command.startChildWorkflowExecution i memo extra, t1, some e)
      | (i, t1, none) =>
          match encodeMemo memo codec with
          | (memoNew, t2, e2) =>
              (Command.startChildWorkflowExecution i memoNew extra,
               t1 ++ t2, e2)
  | Command.other tag => (Command.other tag, [], none)

/-- The `for command in comp.successful.commands` loop: commands in list
order, an exception stopping the loop with later commands untouched. -/
def encodeCommands (commands : List Command) (codec : PayloadCodec)
    (fcodec : FailureCodec) :
    List Command × List CodecCall × Option EngineError :=
  match commands with
  | [] => ([], [], none)
  | c :: rest =>
      match encodeCommand c codec fcodec with
      | (c', t, some e) => (c' :: rest, t, some e)
      | (c', t, none) =>
          match encodeCommands rest codec fcodec with
          | (rest', t2, e2) => (c' :: rest', t ++ t2, e2)

/-- `encode_completion`: `failed` routes the failure to the failure
codec; `successful` encodes every command in order; a completion with
neither field set is left untouched. -/
def encode_completion (comp : WorkflowActivationCompletion)
    (codec : PayloadCodec) (fcodec : FailureCodec) :
    WorkflowActivationCompletion × List CodecCall × Option EngineError :=
  match comp.status with
  | CompletionStatus.failed f =>
      ({ comp with status := CompletionStatus.failed (fcodec.encodeFailure f) },
       [CodecCall.failureCall f], none)
  | CompletionStatus.successful commands =>
      match encodeCommands commands codec fcodec with
      | (commands', t, e) =>
          ({ comp with status := CompletionStatus.successful commands' }, t, e)
  | CompletionStatus.unset tag =>
      ({ comp with status := CompletionStatus.unset tag }, [], none)

/-! ## Retry policy wire conversion (worker.py lines 108-134).

Durations (`datetime.timedelta` / protobuf `Duration`) are modelled as
integer microsecond counts: `timedelta` has microsecond resolution and
`FromTimedelta`/`ToTimedelta` convert it losslessly.  The backoff
coefficient is copied verbatim in both directions, so its numeric type
is immaterial; it is modelled as an integer. -/

/-- `temporalio.common.RetryPolicy` (value object). -/
structure RetryPolicy where
  initial_interval : Int
  backoff_coefficient : Int
  maximum_interval : Option Int
  maximum_attempts : Int
  non_retryable_error_types : List String
deriving DecidableEq, Repr

/-- `temporalio.bridge.proto.common.RetryPolicy` (wire message):
`maximum_interval` is a presence-tracked submessage,
`non_retryable_error_types` a repeated field. -/
structure ProtoRetryPolicy where
  initial_interval : Int
  backoff_coefficient : Int
  maximum_interval : Option Int
  maximum_attempts : Int
  non_retryable_error_types : List String
deriving DecidableEq, Repr

/-- A freshly constructed wire message, all fields at protobuf
defaults. -/
def defaultProtoRetryPolicy : ProtoRetryPolicy :=
  { initial_interval := 0, backoff_coefficient := 0, maximum_interval := none,
    maximum_attempts := 0, non_retryable_error_types := [] }

/-- `retry_policy_from_proto`: read every field back;
`maximum_interval` only when the wire field is present. -/
def retry_policy_from_proto (p : ProtoRetryPolicy) : RetryPolicy :=
  { initial_interval := p.initial_interval,
    backoff_coefficient := p.backoff_coefficient,
    maximum_interval := p.maximum_interval,
    maximum_attempts := p.maximum_attempts,
    non_retryable_error_types := p.non_retryable_error_types }

/-- `retry_policy_to_proto`: write the policy into a wire message `v`.
`if p.maximum_interval:` is Python truthiness — both `None` and a zero
duration skip the field; `if p.non_retryable_error_types:` skips an
empty list, otherwise `extend`s the repeated field. -/
def retry_policy_to_proto (p : RetryPolicy) (v : ProtoRetryPolicy) :
    ProtoRetryPolicy :=
  let v1 := { v with initial_interval := p.initial_interval,
                     backoff_coefficient := p.backoff_coefficient }
  let v2 :=
    match p.maximum_interval with
    | some d => if d = 0 then v1 else { v1 with maximum_interval := some d }
    | none => v1
  let v3 := { v2 with maximum_attempts := p.maximum_attempts }
  if p.non_retryable_error_types = [] then v3
  else { v3 with non_retryable_error_types :=
          v3.non_retryable_error_types ++ p.non_retryable_error_types }

/-! ## Worker shutdown lifecycle (worker.py lines 93-105).

The native reference `self._ref` is modelled as `Option NativeWorkerRef`;
the native core behind it is not under src/, so its two lifecycle
operations are modelled from the spec. -/

/-- The native core worker reference held in `Worker._ref`; `drained`
records whether shutdown drain has completed. -/
structure NativeWorkerRef where
  drained : Bool
deriving DecidableEq, Repr

/-- Errors surfaced by lifecycle operations: `lifecycleViolation` is the
native finalize failure before drain; `invalidHandle` is the Python
`AttributeError` from calling a method on a `None` reference. -/
inductive WorkerError where
  | lifecycleViolation
  | invalidHandle
deriving DecidableEq, Repr

/-- Modelled from the spec: the native reference's `shutdown()` suspends
until the core's graceful drain, after which the reference is drained. -/
def nativeShutdown (r : NativeWorkerRef) : NativeWorkerRef :=
  { r with drained := true }

/-- Modelled from the spec: the native reference's `finalize_shutdown()`
fails with the lifecycle-violation error if shutdown has not completed
fully (internal reference count checks), and succeeds otherwise. -/
def nativeFinalizeShutdown (r : NativeWorkerRef) : Except WorkerError Unit :=
  if r.drained then Except.ok () else Except.error WorkerError.lifecycleViolation

/-- The Python `Worker` handle: just its `_ref` field, `none` once the
reference has been discarded. -/
structure Worker where
  ref : Option NativeWorkerRef
deriving DecidableEq, Repr

/-- `Worker.shutdown`: `await self._ref.shutdown()`; on a discarded
reference the attribute access raises. -/
def Worker.shutdown (w : Worker) : Worker × Except WorkerError Unit :=
  match w.ref with
  | none => (w, Except.error WorkerError.invalidHandle)
  | some r => ({ ref := some (nativeShutdown r) }, Except.ok ())

/-- `Worker.finalize_shutdown`: `ref = self._ref; self._ref = None;
await ref.finalize_shutdown()` — the handle's reference is discarded
unconditionally BEFORE the native call is awaited, so it is gone even
when the native call fails. -/
def Worker.finalizeShutdown (w : Worker) : Worker × Except WorkerError Unit :=
  match w.ref with
  | none => ({ ref := none }, Except.error WorkerError.invalidHandle)
  | some r => ({ ref := none }, nativeFinalizeShutdown r)

/-! ## Structural shapes

The shape of a job/command erases payload and failure contents but
keeps everything the transformation engine must not disturb: the variant
tag, every sequence length, every option's presence, memo keys in order,
and the untouched structural fields. -/

/-- Shape of an Outcome: tag plus presence of the optional result. -/
inductive OutcomeShape where
  | cancelled
  | completed (hasResult : Bool)
  | failed
  | other (tag : Nat)
deriving DecidableEq, Repr

/-- Erase an Outcome to its shape. -/
def Outcome.shape : Outcome → OutcomeShape
  | Outcome.cancelled _ => OutcomeShape.cancelled
  | Outcome.completed r => OutcomeShape.completed r.isSome
  | Outcome.failed _ => OutcomeShape.failed
  | Outcome.other tag => OutcomeShape.other tag

/-- Shape of a child-workflow-start oneof. -/
inductive ChildStartShape where
  | cancelled
  | other (tag : Nat)
deriving DecidableEq, Repr

/-- Erase a ChildStart to its shape. -/
def ChildStart.shape : ChildStart → ChildStartShape
  | ChildStart.cancelled _ => ChildStartShape.cancelled
  | ChildStart.other tag => ChildStartShape.other tag

/-- Shape of a job: variant tag, payload-sequence lengths, option
presence, memo keys in order, untouched fields. -/
inductive JobShape where
  | cancelWorkflow (n : Nat) (extra : Nat)
  | queryWorkflow (n : Nat) (extra : Nat)
  | resolveActivity (o : OutcomeShape) (extra : Nat)
  | resolveChildWorkflowExecution (o : OutcomeShape) (extra : Nat)
  | resolveChildWorkflowExecutionStart (s : ChildStartShape) (extra : Nat)
  | resolveRequestCancelExternalWorkflow (hasFailure : Bool) (extra : Nat)
  | resolveSignalExternalWorkflow (hasFailure : Bool) (extra : Nat)
  | signalWorkflow (n : Nat) (extra : Nat)
  | startWorkflow (n : Nat) (hasContinuedFailure : Bool)
      (memoKeys : List String) (extra : Nat)
  | other (tag : Nat)
deriving DecidableEq, Repr

/-- Erase a job to its shape. -/
def Job.shape : Job → JobShape
  | Job.cancelWorkflow details extra => JobShape.cancelWorkflow details.length extra
  | Job.queryWorkflow arguments extra => JobShape.queryWorkflow arguments.length extra
  | Job.resolveActivity result extra => JobShape.resolveActivity result.shape extra
  | Job.resolveChildWorkflowExecution result extra =>
      JobShape.resolveChildWorkflowExecution result.shape extra
  | Job.resolveChildWorkflowExecutionStart status extra =>
      JobShape.resolveChildWorkflowExecutionStart status.shape extra
  | Job.resolveRequestCancelExternalWorkflow failure extra =>
      JobShape.resolveRequestCancelExternalWorkflow failure.isSome extra
  | Job.resolveSignalExternalWorkflow failure extra =>
      JobShape.resolveSignalExternalWorkflow failure.isSome extra
  | Job.signalWorkflow input extra => JobShape.signalWorkflow input.length extra
  | Job.startWorkflow arguments continuedFailure memo extra =>
      JobShape.startWorkflow arguments.length continuedFailure.isSome
        (memo.map Prod.fst) extra
  | Job.other tag => JobShape.other tag

/-- Shape of a respond-to-query result oneof. -/
inductive QueryResultShape where
  | failed
  | succeeded (hasResponse : Bool)
  | other (tag : Nat)
deriving DecidableEq, Repr

/-- Erase a QueryResult to its shape. -/
def QueryResult.shape : QueryResult → QueryResultShape
  | QueryResult.failed _ => QueryResultShape.failed
  | QueryResult.succeeded r => QueryResultShape.succeeded r.isSome
  | QueryResult.other tag => QueryResultShape.other tag

/-- Shape of a command. -/
inductive CommandShape where
  | completeWorkflowExecution (hasResult : Bool) (extra : Nat)
  | continueAsNewWorkflowExecution (n : Nat) (memoKeys : List String) (extra : Nat)
  | failWorkflowExecution (extra : Nat)
  | respondToQuery (q : QueryResultShape) (extra : Nat)
  | scheduleActivity (n : Nat) (extra : Nat)
  | scheduleLocalActivity (n : Nat) (extra : Nat)
  | signalExternalWorkflowExecution (n : Nat) (extra : Nat)
  | startChildWorkflowExecution (n : Nat) (memoKeys : List String) (extra : Nat)
  | other (tag : Nat)
deriving DecidableEq, Repr

/-- Erase a command to its shape. -/
def Command.shape : Command → CommandShape
  | Command.completeWorkflowExecution result extra =>
      CommandShape.completeWorkflowExecution result.isSome extra
  | Command.continueAsNewWorkflowExecution arguments memo extra =>
      CommandShape.continueAsNewWorkflowExecution arguments.length
        (memo.map Prod.fst) extra
  | Command.failWorkflowExecution _ extra => CommandShape.failWorkflowExecution extra
  | Command.respondToQuery result extra =>
      CommandShape.respondToQuery result.shape extra
  | Command.scheduleActivity arguments extra =>
      CommandShape.scheduleActivity arguments.length extra
  | Command.scheduleLocalActivity arguments extra =>
      CommandShape.scheduleLocalActivity arguments.length extra
  | Command.signalExternalWorkflowExecution args extra =>
      CommandShape.signalExternalWorkflowExecution args.length extra
  | Command.startChildWorkflowExecution input memo extra =>
      CommandShape.startChildWorkflowExecution input.length
        (memo.map Prod.fst) extra
  | Command.other tag => CommandShape.other tag

/-- Shape of a completion status: tag, and for `successful` the command
shapes in order. -/
inductive CompletionShape where
  | failed
  | successful (commands : List CommandShape)
  | unset (tag : Nat)
deriving DecidableEq, Repr

/-- Erase a completion status to its shape. -/
def CompletionStatus.shape : CompletionStatus → CompletionShape
  | CompletionStatus.failed _ => CompletionShape.failed
  | CompletionStatus.successful commands =>
      CompletionShape.successful (commands.map Command.shape)
  | CompletionStatus.unset tag => CompletionShape.unset tag

/-! ## Specification-side call order

These definitions transcribe the per-variant transformation tables of
the specification (§4.2 and §4.3) and its required left-to-right,
depth-first call order; they are written from the spec's words, to be
compared with the engine's recorded traces. -/

/-- Spec table: a payload sequence is one batched codec call, or none
when empty. -/
def specPayloadsCalls (ps : List BridgePayload) : List CodecCall :=
  if ps.length = 0 then [] else [CodecCall.payloadCall (from_bridge_payloads ps)]

/-- Spec table: a single optional payload is a one-element-batch call
when present. -/
def specPayloadCall (p : BridgePayload) : List CodecCall :=
  [CodecCall.payloadCall [from_bridge_payload p]]

/-- Spec table: the Outcome row — cancelled/failed to the failure codec,
completed's optional result to the payload codec when present. -/
def specOutcomeCalls : Outcome → List CodecCall
  | Outcome.cancelled f => [CodecCall.failureCall f]
  | Outcome.completed none => []
  | Outcome.completed (some r) => specPayloadCall r
  | Outcome.failed f => [CodecCall.failureCall f]
  | Outcome.other _ => []

/-- Spec table (§4.2): the calls one job produces, in table order. -/
def specJobCalls : Job → List CodecCall
  | Job.cancelWorkflow details _ => specPayloadsCalls details
  | Job.queryWorkflow arguments _ => specPayloadsCalls arguments
  | Job.resolveActivity result _ => specOutcomeCalls result
  | Job.resolveChildWorkflowExecution result _ => specOutcomeCalls result
  | Job.resolveChildWorkflowExecutionStart status _ =>
      match status with
      | ChildStart.cancelled f => [CodecCall.failureCall f]
      | ChildStart.other _ => []
  | Job.resolveRequestCancelExternalWorkflow failure _ =>
      match failure with
      | some f => [CodecCall.failureCall f]
      | none => []
  | Job.resolveSignalExternalWorkflow failure _ =>
      match failure with
      | some f => [CodecCall.failureCall f]
      | none => []
  | Job.signalWorkflow input _ => specPayloadsCalls input
  | Job.startWorkflow arguments continuedFailure memo _ =>
      specPayloadsCalls arguments ++
      (match continuedFailure with
       | some f => [CodecCall.failureCall f]
       | none => []) ++
      memo.map (fun kv => CodecCall.payloadCall [kv.2])
  | Job.other _ => []

/-- Spec table (§4.3): the calls one command produces, in table order. -/
def specCommandCalls : Command → List CodecCall
  | Command.completeWorkflowExecution result _ =>
      match result with
      | some r => specPayloadCall r
      | none => []
  | Command.continueAsNewWorkflowExecution arguments memo _ =>
      specPayloadsCalls arguments ++
      memo.map (fun kv => CodecCall.payloadCall [from_bridge_payload kv.2])
  | Command.failWorkflowExecution f _ => [CodecCall.failureCall f]
  | Command.respondToQuery result _ =>
      match result with
      | QueryResult.failed f => [CodecCall.failureCall f]
      | QueryResult.succeeded (some r) => specPayloadCall r
      | QueryResult.succeeded none => []
      | QueryResult.other _ => []
  | Command.scheduleActivity arguments _ => specPayloadsCalls arguments
  | Command.scheduleLocalActivity arguments _ => specPayloadsCalls arguments
  | Command.signalExternalWorkflowExecution args _ => specPayloadsCalls args
  | Command.startChildWorkflowExecution input memo _ =>
      specPayloadsCalls input ++
      memo.map (fun kv => CodecCall.payloadCall [from_bridge_payload kv.2])
  | Command.other _ => []

/-- Spec (§4.3): the calls a whole completion produces. -/
def specCompletionCalls : CompletionStatus → List CodecCall
  | CompletionStatus.failed f => [CodecCall.failureCall f]
  | CompletionStatus.successful commands => commands.flatMap specCommandCalls
  | CompletionStatus.unset _ => []

/-! ## Sample fixtures used by witness theorems. -/

/-- A sample bridge payload. -/
def samplePayloadA : BridgePayload := { metadata := [("k", [1])], data := [2, 3] }

/-- Another sample bridge payload. -/
def samplePayloadB : BridgePayload := { metadata := [], data := [5] }

/-- A third sample bridge payload. -/
def samplePayloadC : BridgePayload := { metadata := [("m", [])], data := [7] }

/-- The identity payload codec (length-preserving in both directions). -/
def idCodec : PayloadCodec := { decode := fun ps => ps, encode := fun ps => ps }

/-- A contract-violating codec that always returns the empty list. -/
def emptyCodec : PayloadCodec := { decode := fun _ => [], encode := fun _ => [] }

/-- The identity failure codec. -/
def idFailureCodec : FailureCodec :=
  { decodeFailure := fun f => f, encodeFailure := fun f => f }

/-! ## Helper lemmas -/

lemma applyToBridgePayloads_eq (cb : List ApiPayload → List ApiPayload)
    (hcb : ∀ l, (cb l).length = l.length) (ps : List BridgePayload) :
    applyToBridgePayloads ps cb =
      (to_bridge_payloads (cb (from_bridge_payloads ps)),
       specPayloadsCalls ps, none) := by
  unfold applyToBridgePayloads specPayloadsCalls
  by_cases h : ps.length = 0
  · have hps : ps = [] := List.length_eq_zero.mp h
    subst hps
    have hnil : cb [] = [] := by
      have hl := hcb []
      simpa using hl
    simp [hnil, to_bridge_payloads, from_bridge_payloads]
  · simp [h]

lemma applyToBridgePayloads_len (cb : List ApiPayload → List ApiPayload)
    (hcb : ∀ l, (cb l).length = l.length) (ps : List BridgePayload) :
    (applyToBridgePayloads ps cb).1.length = ps.length := by
  rw [applyToBridgePayloads_eq cb hcb ps]
  simp [to_bridge_payloads, from_bridge_payloads, hcb]

lemma applyToBridgePayload_eq (cb : List ApiPayload → List ApiPayload)
    (hcb : ∀ l, (cb l).length = l.length) (p : BridgePayload) :
    ∃ q, cb [from_bridge_payload p] = [q] ∧
      applyToBridgePayload p cb = (to_bridge_payload q, specPayloadCall p, none) := by
  have h1 : (cb [from_bridge_payload p]).length = 1 := by
    rw [hcb]
    rfl
  obtain ⟨q, hq⟩ := List.length_eq_one.mp h1
  refine ⟨q, hq, ?_⟩
  simp [applyToBridgePayload, hq, to_bridge_payload, specPayloadCall]

lemma decodeMemoValue_eq (codec : PayloadCodec)
    (hdec : ∀ l, (codec.decode l).length = l.length) (v : ApiPayload) :
    ∃ q, codec.decode [v] = [q] ∧
      decodeMemoValue v codec = (q, [CodecCall.payloadCall [v]], none) := by
  have h1 : (codec.decode [v]).length = 1 := by
    rw [hdec]
    rfl
  obtain ⟨q, hq⟩ := List.length_eq_one.mp h1
  refine ⟨q, hq, ?_⟩
  simp [decodeMemoValue, hq]

lemma decodeMemo_eq (codec : PayloadCodec)
    (hdec : ∀ l, (codec.decode l).length = l.length)
    (memo : List (String × ApiPayload)) :
    ∃ memoNew, decodeMemo memo codec =
        (memoNew, memo.map (fun kv => CodecCall.payloadCall [kv.2]), none) ∧
      memoNew.map Prod.fst = memo.map Prod.fst := by
  induction memo with
  | nil => exact ⟨[], by simp [decodeMemo], by simp⟩
  | cons kv rest ih =>
      obtain ⟨q, _, hval⟩ := decodeMemoValue_eq codec hdec kv.2
      obtain ⟨restNew, hrest, hkeys⟩ := ih
      refine ⟨(kv.1, q) :: restNew, ?_, ?_⟩
      · simp [decodeMemo, hval, hrest]
      · simp [hkeys]

lemma encodeMemo_eq (codec : PayloadCodec)
    (henc : ∀ l, (codec.encode l).length = l.length)
    (memo : List (String × BridgePayload)) :
    ∃ memoNew, encodeMemo memo codec =
        (memoNew,
         memo.map (fun kv => CodecCall.payloadCall [from_bridge_payload kv.2]),
         none) ∧
      memoNew.map Prod.fst = memo.map Prod.fst := by
  induction memo with
  | nil => exact ⟨[], by simp [encodeMemo], by simp⟩
  | cons kv rest ih =>
      obtain ⟨q, _, hval⟩ := applyToBridgePayload_eq codec.encode henc kv.2
      obtain ⟨restNew, hrest, hkeys⟩ := ih
      refine ⟨(kv.1, to_bridge_payload q) :: restNew, ?_, ?_⟩
      · simp [encodeMemo, encodeBridgePayload, hval, hrest, specPayloadCall]
      · simp [hkeys]

lemma decodeJob_eq (codec : PayloadCodec) (fcodec : FailureCodec)
    (hdec : ∀ l, (codec.decode l).length = l.length) (j : Job) :
    ∃ j', decodeJob j codec fcodec = (j', specJobCalls j, none) ∧
      Job.shape j' = Job.shape j := by
  cases j with
  | cancelWorkflow details extra =>
      have h := applyToBridgePayloads_eq codec.decode hdec details
      refine ⟨Job.cancelWorkflow
        (to_bridge_payloads (codec.decode (from_bridge_payloads details)))
        extra, ?_, ?_⟩
      · simp [decodeJob, decodeBridgePayloads, h, specJobCalls]
      · simp [Job.shape, to_bridge_payloads, from_bridge_payloads, hdec]
  | queryWorkflow arguments extra =>
      have h := applyToBridgePayloads_eq codec.decode hdec arguments
      refine ⟨Job.queryWorkflow
        (to_bridge_payloads (codec.decode (from_bridge_payloads arguments)))
        extra, ?_, ?_⟩
      · simp [decodeJob, decodeBridgePayloads, h, specJobCalls]
      · simp [Job.shape, to_bridge_payloads, from_bridge_payloads, hdec]
  | resolveActivity result extra =>
      cases result with
      | cancelled f =>
          refine ⟨Job.resolveActivity
            (Outcome.cancelled (fcodec.decodeFailure f)) extra, ?_, ?_⟩
          · simp [decodeJob, specJobCalls, specOutcomeCalls]
          · simp [Job.shape, Outcome.shape]
      | completed r =>
          cases r with
          | none =>
              refine ⟨Job.resolveActivity (Outcome.completed none) extra, ?_, ?_⟩
              · simp [decodeJob, specJobCalls, specOutcomeCalls]
              · simp [Job.shape, Outcome.shape]
          | some rp =>
              obtain ⟨q, _, happ⟩ := applyToBridgePayload_eq codec.decode hdec rp
              refine ⟨Job.resolveActivity
                (Outcome.completed (some (to_bridge_payload q))) extra, ?_, ?_⟩
              · simp [decodeJob, decodeBridgePayload, happ, specJobCalls,
                  specOutcomeCalls]
              · simp [Job.shape, Outcome.shape]
      | failed f =>
          refine ⟨Job.resolveActivity
            (Outcome.failed (fcodec.decodeFailure f)) extra, ?_, ?_⟩
          · simp [decodeJob, specJobCalls, specOutcomeCalls]
          · simp [Job.shape, Outcome.shape]
      | other tag =>
          refine ⟨Job.resolveActivity (Outcome.other tag) extra, ?_, ?_⟩
          · simp [decodeJob, specJobCalls, specOutcomeCalls]
          · simp [Job.shape, Outcome.shape]
  | resolveChildWorkflowExecution result extra =>
      cases result with
      | cancelled f =>
          refine ⟨Job.resolveChildWorkflowExecution
            (Outcome.cancelled (fcodec.decodeFailure f)) extra, ?_, ?_⟩
          · simp [decodeJob, specJobCalls, specOutcomeCalls]
          · simp [Job.shape, Outcome.shape]
      | completed r =>
          cases r with
          | none =>
              refine ⟨Job.resolveChildWorkflowExecution
                (Outcome.completed none) extra, ?_, ?_⟩
              · simp [decodeJob, specJobCalls, specOutcomeCalls]
              · simp [Job.shape, Outcome.shape]
          | some rp =>
              obtain ⟨q, _, happ⟩ := applyToBridgePayload_eq codec.decode hdec rp
              refine ⟨Job.resolveChildWorkflowExecution
                (Outcome.completed (some (to_bridge_payload q))) extra, ?_, ?_⟩
              · simp [decodeJob, decodeBridgePayload, happ, specJobCalls,
                  specOutcomeCalls]
              · simp [Job.shape, Outcome.shape]
      | failed f =>
          refine ⟨Job.resolveChildWorkflowExecution
            (Outcome.failed (fcodec.decodeFailure f)) extra, ?_, ?_⟩
          · simp [decodeJob, specJobCalls, specOutcomeCalls]
          · simp [Job.shape, Outcome.shape]
      | other tag =>
          refine ⟨Job.resolveChildWorkflowExecution (Outcome.other tag) extra,
            ?_, ?_⟩
          · simp [decodeJob, specJobCalls, specOutcomeCalls]
          · simp [Job.shape, Outcome.shape]
  | resolveChildWorkflowExecutionStart status extra =>
      cases status with
      | cancelled f =>
          refine ⟨Job.resolveChildWorkflowExecutionStart
            (ChildStart.cancelled (fcodec.decodeFailure f)) extra, ?_, ?_⟩
          · simp [decodeJob, specJobCalls]
          · simp [Job.shape, ChildStart.shape]
      | other tag =>
          refine ⟨Job.resolveChildWorkflowExecutionStart (ChildStart.other tag)
            extra, ?_, ?_⟩
          · simp [decodeJob, specJobCalls]
          · simp [Job.shape, ChildStart.shape]
  | resolveRequestCancelExternalWorkflow failure extra =>
      cases failure with
      | some f =>
          refine ⟨Job.resolveRequestCancelExternalWorkflow
            (some (fcodec.decodeFailure f)) extra, ?_, ?_⟩
          · simp [decodeJob, specJobCalls]
          · simp [Job.shape]
      | none =>
          refine ⟨Job.resolveRequestCancelExternalWorkflow none extra, ?_, ?_⟩
          · simp [decodeJob, specJobCalls]
          · simp [Job.shape]
  | resolveSignalExternalWorkflow failure extra =>
      cases failure with
      | some f =>
          refine ⟨Job.resolveSignalExternalWorkflow
            (some (fcodec.decodeFailure f)) extra, ?_, ?_⟩
          · simp [decodeJob, specJobCalls]
          · simp [Job.shape]
      | none =>
          refine ⟨Job.resolveSignalExternalWorkflow none extra, ?_, ?_⟩
          · simp [decodeJob, specJobCalls]
          · simp [Job.shape]
  | signalWorkflow input extra =>
      have h := applyToBridgePayloads_eq codec.decode hdec input
      refine ⟨Job.signalWorkflow
        (to_bridge_payloads (codec.decode (from_bridge_payloads input)))
        extra, ?_, ?_⟩
      · simp [decodeJob, decodeBridgePayloads, h, specJobCalls]
      · simp [Job.shape, to_bridge_payloads, from_bridge_payloads, hdec]
  | startWorkflow arguments continuedFailure memo extra =>
      have hargs := applyToBridgePayloads_eq codec.decode hdec arguments
      obtain ⟨memoNew, hmemo, hkeys⟩ := decodeMemo_eq codec hdec memo
      cases continuedFailure with
      | none =>
          refine ⟨Job.startWorkflow
            (to_bridge_payloads (codec.decode (from_bridge_payloads arguments)))
            none memoNew extra, ?_, ?_⟩
          · simp [decodeJob, decodeBridgePayloads, hargs, hmemo, specJobCalls]
          · simp [Job.shape, to_bridge_payloads, from_bridge_payloads, hdec,
              hkeys]
      | some f =>
          refine ⟨Job.startWorkflow
            (to_bridge_payloads (codec.decode (from_bridge_payloads arguments)))
            (some (fcodec.decodeFailure f)) memoNew extra, ?_, ?_⟩
          · simp [decodeJob, decodeBridgePayloads, hargs, hmemo, specJobCalls]
          · simp [Job.shape, to_bridge_payloads, from_bridge_payloads, hdec,
              hkeys]
  | other tag =>
      refine ⟨Job.other tag, ?_, ?_⟩
      · simp [decodeJob, specJobCalls]
      · simp [Job.shape]

lemma decodeJobs_eq (codec : PayloadCodec) (fcodec : FailureCodec)
    (hdec : ∀ l, (codec.decode l).length = l.length) (jobs : List Job) :
    ∃ jobs', decodeJobs jobs codec fcodec =
        (jobs', jobs.flatMap specJobCalls, none) ∧
      jobs'.map Job.shape = jobs.map Job.shape := by
  induction jobs with
  | nil => exact ⟨[], by simp [decodeJobs], by simp⟩
  | cons j rest ih =>
      obtain ⟨j', hj, hshape⟩ := decodeJob_eq codec fcodec hdec j
      obtain ⟨rest', hrest, hshapes⟩ := ih
      exact ⟨j' :: rest', by simp [decodeJobs, hj, hrest], by
        simp [hshape, hshapes]⟩

lemma encodeCommand_eq (codec : PayloadCodec) (fcodec : FailureCodec)
    (henc : ∀ l, (codec.encode l).length = l.length) (c : Command) :
    ∃ c', encodeCommand c codec fcodec = (c', specCommandCalls c, none) ∧
      Command.shape c' = Command.shape c := by
  cases c with
  | completeWorkflowExecution result extra =>
      cases result with
      | none =>
          refine ⟨Command.completeWorkflowExecution none extra, ?_, ?_⟩
          · simp [encodeCommand, specCommandCalls]
          · simp [Command.shape]
      | some rp =>
          obtain ⟨q, _, happ⟩ := applyToBridgePayload_eq codec.encode henc rp
          refine ⟨Command.completeWorkflowExecution
            (some (to_bridge_payload q)) extra, ?_, ?_⟩
          · simp [encodeCommand, encodeBridgePayload, happ, specCommandCalls]
          · simp [Command.shape]
  | continueAsNewWorkflowExecution arguments memo extra =>
      have hargs := applyToBridgePayloads_eq codec.encode henc arguments
      obtain ⟨memoNew, hmemo, hkeys⟩ := encodeMemo_eq codec henc memo
      refine ⟨Command.continueAsNewWorkflowExecution
        (to_bridge_payloads (codec.encode (from_bridge_payloads arguments)))
        memoNew extra, ?_, ?_⟩
      · simp [encodeCommand, encodeBridgePayloads, hargs, hmemo,
          specCommandCalls]
      · simp [Command.shape, to_bridge_payloads, from_bridge_payloads, henc,
          hkeys]
  | failWorkflowExecution f extra =>
      refine ⟨Command.failWorkflowExecution (fcodec.encodeFailure f) extra,
        ?_, ?_⟩
      · simp [encodeCommand, specCommandCalls]
      · simp [Command.shape]
  | respondToQuery result extra =>
      cases result with
      | failed f =>
          refine ⟨Command.respondToQuery
            (QueryResult.failed (fcodec.encodeFailure f)) extra, ?_, ?_⟩
          · simp [encodeCommand, specCommandCalls]
          · simp [Command.shape, QueryResult.shape]
      | succeeded r =>
          cases r with
          | none =>
              refine ⟨Command.respondToQuery (QueryResult.succeeded none)
                extra, ?_, ?_⟩
              · simp [encodeCommand, specCommandCalls]
              · simp [Command.shape, QueryResult.shape]
          | some rp =>
              obtain ⟨q, _, happ⟩ := applyToBridgePayload_eq codec.encode henc rp
              refine ⟨Command.respondToQuery
                (QueryResult.succeeded (some (to_bridge_payload q))) extra,
                ?_, ?_⟩
              · simp [encodeCommand, encodeBridgePayload, happ,
                  specCommandCalls]
              · simp [Command.shape, QueryResult.shape]
      | other tag =>
          refine ⟨Command.respondToQuery (QueryResult.other tag) extra, ?_, ?_⟩
          · simp [encodeCommand, specCommandCalls]
          · simp [Command.shape, QueryResult.shape]
  | scheduleActivity arguments extra =>
      have h := applyToBridgePayloads_eq codec.encode henc arguments
      refine ⟨Command.scheduleActivity
        (to_bridge_payloads (codec.encode (from_bridge_payloads arguments)))
        extra, ?_, ?_⟩
      · simp [encodeCommand, encodeBridgePayloads, h, specCommandCalls]
      · simp [Command.shape, to_bridge_payloads, from_bridge_payloads, henc]
  | scheduleLocalActivity arguments extra =>
      have h := applyToBridgePayloads_eq codec.encode henc arguments
      refine ⟨Command.scheduleLocalActivity
        (to_bridge_payloads (codec.encode (from_bridge_payloads arguments)))
        extra, ?_, ?_⟩
      · simp [encodeCommand, encodeBridgePayloads, h, specCommandCalls]
      · simp [Command.shape, to_bridge_payloads, from_bridge_payloads, henc]
  | signalExternalWorkflowExecution args extra =>
      have h := applyToBridgePayloads_eq codec.encode henc args
      refine ⟨Command.signalExternalWorkflowExecution
        (to_bridge_payloads (codec.encode (from_bridge_payloads args)))
        extra, ?_, ?_⟩
      · simp [encodeCommand, encodeBridgePayloads, h, specCommandCalls]
      · simp [Command.shape, to_bridge_payloads, from_bridge_payloads, henc]
  | startChildWorkflowExecution input memo extra =>
      have hin := applyToBridgePayloads_eq codec.encode henc input
      obtain ⟨memoNew, hmemo, hkeys⟩ := encodeMemo_eq codec henc memo
      refine ⟨Command.startChildWorkflowExecution
        (to_bridge_payloads (codec.encode (from_bridge_payloads input)))
        memoNew extra, ?_, ?_⟩
      · simp [encodeCommand, encodeBridgePayloads, hin, hmemo,
          specCommandCalls]
      · simp [Command.shape, to_bridge_payloads, from_bridge_payloads, henc,
          hkeys]
  | other tag =>
      refine ⟨Command.other tag, ?_, ?_⟩
      · simp [encodeCommand, specCommandCalls]
      · simp [Command.shape]

lemma encodeCommands_eq (codec : PayloadCodec) (fcodec : FailureCodec)
    (henc : ∀ l, (codec.encode l).length = l.length) (commands : List Command) :
    ∃ commands', encodeCommands commands codec fcodec =
        (commands', commands.flatMap specCommandCalls, none) ∧
      commands'.map Command.shape = commands.map Command.shape := by
  induction commands with
  | nil => exact ⟨[], by simp [encodeCommands], by simp⟩
  | cons c rest ih =>
      obtain ⟨c', hc, hshape⟩ := encodeCommand_eq codec fcodec henc c
      obtain ⟨rest', hrest, hshapes⟩ := ih
      exact ⟨c' :: rest', by simp [encodeCommands, hc, hrest], by
        simp [hshape, hshapes]⟩

lemma encode_completion_eq (codec : PayloadCodec) (fcodec : FailureCodec)
    (henc : ∀ l, (codec.encode l).length = l.length)
    (comp : WorkflowActivationCompletion) :
    ∃ st', encode_completion comp codec fcodec =
        ({ comp with status := st' }, specCompletionCalls comp.status, none) ∧
      CompletionStatus.shape st' = CompletionStatus.shape comp.status := by
  obtain ⟨st, extra⟩ := comp
  cases st with
  | failed f =>
      refine ⟨CompletionStatus.failed (fcodec.encodeFailure f), ?_, ?_⟩
      · simp [encode_completion, specCompletionCalls]
      · simp [CompletionStatus.shape]
  | successful commands =>
      obtain ⟨commands', hc, hshapes⟩ := encodeCommands_eq codec fcodec henc
        commands
      refine ⟨CompletionStatus.successful commands', ?_, ?_⟩
      · simp [encode_completion, hc, specCompletionCalls]
      · simp [CompletionStatus.shape, hshapes]
  | unset tag =>
      refine ⟨CompletionStatus.unset tag, ?_, ?_⟩
      · simp [encode_completion, specCompletionCalls]
      · simp [CompletionStatus.shape]

lemma applyToBridgePayloads_err_none (ps : List BridgePayload)
    (cb : List ApiPayload → List ApiPayload) :
    (applyToBridgePayloads ps cb).2.2 = none := by
  unfold applyToBridgePayloads
  split <;> rfl

/-! ## Claim theorems -/

/-- C1, counterexample: a codec given a batch of length 1 that returns a
sequence of length 0 does NOT cause the engine to raise any error on the
batched-sequence path — the pass reports no error and the field's
contents are silently replaced by the mismatched (empty) result.  This
refutes the claim that every codec length mismatch raises a
CountMismatch error. -/
theorem C1_no_error_on_batched_mismatch :
    (decodeBridgePayloads [samplePayloadA] emptyCodec).2.2 = none ∧
    (decodeBridgePayloads [samplePayloadA] emptyCodec).1 = [] ∧
    (decodeBridgePayloads [samplePayloadA] emptyCodec).1.length ≠
      [samplePayloadA].length :=
  ⟨rfl, rfl, by decide⟩

/-- C1, amended: the batched path performs no length check and never
raises — the codec's result, whatever its length, replaces the field's
contents.  On the single-optional-payload path (both directions) the
engine raises an error — a plain index error, not a dedicated
CountMismatch — exactly when the codec returns an empty sequence, and
the payload field is not mutated in that case; a codec result with
extra elements is accepted silently, its first element used. -/
theorem C1_mismatch_behavior (codec : PayloadCodec) (ps : List BridgePayload)
    (p : BridgePayload) :
    (decodeBridgePayloads ps codec).2.2 = none ∧
    (encodeBridgePayloads ps codec).2.2 = none ∧
    (codec.decode [from_bridge_payload p] = [] →
      decodeBridgePayload p codec =
        (p, [CodecCall.payloadCall [from_bridge_payload p]],
         some EngineError.indexError)) ∧
    (∀ q rest, codec.decode [from_bridge_payload p] = q :: rest →
      decodeBridgePayload p codec =
        (to_bridge_payload q, [CodecCall.payloadCall [from_bridge_payload p]],
         none)) ∧
    (codec.encode [from_bridge_payload p] = [] →
      encodeBridgePayload p codec =
        (p, [CodecCall.payloadCall [from_bridge_payload p]],
         some EngineError.indexError)) ∧
    (∀ q rest, codec.encode [from_bridge_payload p] = q :: rest →
      encodeBridgePayload p codec =
        (to_bridge_payload q, [CodecCall.payloadCall [from_bridge_payload p]],
         none)) := by
  refine ⟨applyToBridgePayloads_err_none ps codec.decode,
          applyToBridgePayloads_err_none ps codec.encode, ?_, ?_, ?_, ?_⟩
  · intro h
    simp [decodeBridgePayload, applyToBridgePayload, h]
  · intro q rest h
    simp [decodeBridgePayload, applyToBridgePayload, h, to_bridge_payload]
  · intro h
    simp [encodeBridgePayload, applyToBridgePayload, h]
  · intro q rest h
    simp [encodeBridgePayload, applyToBridgePayload, h, to_bridge_payload]

/-- Witness for C1: the always-empty codec triggers the index error on
the single-payload path, leaving the payload unmutated. -/
theorem C1_mismatch_behavior_witness :
    decodeBridgePayload samplePayloadA emptyCodec =
      (samplePayloadA,
       [CodecCall.payloadCall [from_bridge_payload samplePayloadA]],
       some EngineError.indexError) :=
  (C1_mismatch_behavior emptyCodec [] samplePayloadA).2.2.1 rfl

/-- C2: for every payload sequence of length N ≥ 1, the transform (in
either direction) invokes the codec exactly once, with all N elements
converted in their original order, reports no error, and the codec's
result replaces the field's contents positionally (element i of the
field is the converted element i of the result). -/
theorem C2_batched_positional (codec : PayloadCodec) (ps : List BridgePayload)
    (h : 1 ≤ ps.length) :
    (decodeBridgePayloads ps codec).2.1 =
      [CodecCall.payloadCall (ps.map from_bridge_payload)] ∧
    (ps.map from_bridge_payload).length = ps.length ∧
    (decodeBridgePayloads ps codec).1 =
      (codec.decode (ps.map from_bridge_payload)).map to_bridge_payload ∧
    (∀ i : Nat, (decodeBridgePayloads ps codec).1[i]? =
      ((codec.decode (ps.map from_bridge_payload))[i]?).map to_bridge_payload) ∧
    (decodeBridgePayloads ps codec).2.2 = none ∧
    (encodeBridgePayloads ps codec).2.1 =
      [CodecCall.payloadCall (ps.map from_bridge_payload)] ∧
    (encodeBridgePayloads ps codec).1 =
      (codec.encode (ps.map from_bridge_payload)).map to_bridge_payload ∧
    (∀ i : Nat, (encodeBridgePayloads ps codec).1[i]? =
      ((codec.encode (ps.map from_bridge_payload))[i]?).map to_bridge_payload) ∧
    (encodeBridgePayloads ps codec).2.2 = none := by
  have hne : ¬ ps.length = 0 := by omega
  refine ⟨?_, ?_, ?_, ?_, ?_, ?_, ?_, ?_, ?_⟩ <;>
    simp [decodeBridgePayloads, encodeBridgePayloads, applyToBridgePayloads,
      hne, from_bridge_payloads, to_bridge_payloads]

/-- Witness for C2 at a concrete two-element sequence. -/
theorem C2_batched_positional_witness :
    1 ≤ ([samplePayloadA, samplePayloadB] : List BridgePayload).length ∧
    (decodeBridgePayloads [samplePayloadA, samplePayloadB] idCodec).2.1 =
      [CodecCall.payloadCall
        ([samplePayloadA, samplePayloadB].map from_bridge_payload)] :=
  ⟨by decide,
   (C2_batched_positional idCodec [samplePayloadA, samplePayloadB]
     (by decide)).1⟩

/-- C3, counterexample: a worker whose drain is not complete.  The first
`finalize_shutdown` does fail with the lifecycle-violation error, but
the handle's reference is already discarded, so the handle is NOT usable
for a retry: both a subsequent `shutdown()` and a subsequent
`finalize_shutdown()` fail with the invalid-handle error.  This refutes
the claim that a failed finalize leaves the handle usable for retry. -/
theorem C3_handle_unusable_after_failed_finalize :
    (Worker.finalizeShutdown { ref := some { drained := false } }).2 =
      Except.error WorkerError.lifecycleViolation ∧
    (Worker.finalizeShutdown { ref := some { drained := false } }).1.ref =
      none ∧
    (Worker.shutdown
      (Worker.finalizeShutdown { ref := some { drained := false } }).1).2 =
      Except.error WorkerError.invalidHandle ∧
    (Worker.finalizeShutdown
      (Worker.finalizeShutdown { ref := some { drained := false } }).1).2 =
      Except.error WorkerError.invalidHandle := by
  refine ⟨rfl, rfl, rfl, rfl⟩

/-- C3, amended: `finalize_shutdown` called before drain completes fails
with the lifecycle-violation error, but it discards the handle's
reference BEFORE awaiting the native call, so the handle is left
permanently unusable — a retry of `shutdown()` or `finalize_shutdown()`
fails with the invalid-handle error, not with another lifecycle check.
A second `finalize_shutdown` after a successful one likewise fails with
the invalid-handle error (the reference is gone). -/
theorem C3_finalize_lifecycle (w : Worker) (r : NativeWorkerRef)
    (hw : w.ref = some r) :
    (r.drained = false →
      (Worker.finalizeShutdown w).2 =
        Except.error WorkerError.lifecycleViolation) ∧
    (Worker.finalizeShutdown w).1.ref = none ∧
    (Worker.shutdown (Worker.finalizeShutdown w).1).2 =
      Except.error WorkerError.invalidHandle ∧
    (Worker.finalizeShutdown (Worker.finalizeShutdown w).1).2 =
      Except.error WorkerError.invalidHandle ∧
    (r.drained = true → (Worker.finalizeShutdown w).2 = Except.ok ()) := by
  refine ⟨?_, ?_, ?_, ?_, ?_⟩
  · intro h
    simp [Worker.finalizeShutdown, hw, nativeFinalizeShutdown, h]
  · simp [Worker.finalizeShutdown, hw]
  · simp [Worker.finalizeShutdown, Worker.shutdown, hw]
  · simp [Worker.finalizeShutdown, hw]
  · intro h
    simp [Worker.finalizeShutdown, hw, nativeFinalizeShutdown, h]

/-- Witness for C3 at a concrete undrained and a concrete drained
worker. -/
theorem C3_finalize_lifecycle_witness :
    (({ ref := some { drained := false } } : Worker)).ref =
      some { drained := false } ∧
    ((({ drained := false } : NativeWorkerRef)).drained = false →
      (Worker.finalizeShutdown { ref := some { drained := false } }).2 =
        Except.error WorkerError.lifecycleViolation) :=
  ⟨rfl, (C3_finalize_lifecycle { ref := some { drained := false } }
    { drained := false } rfl).1⟩

/-- C4: under the codec contract (decode and encode preserve sequence
length), `decode_activation` and `encode_completion` preserve the whole
structural shape of the activation/completion — every variant tag,
every sequence's cardinality and position, every option's presence,
every memo key in order, and every untouched structural field — and
report no error; every payload that entered a codec call is replaced by
exactly one payload (the shape records each payload slot). -/
theorem C4_structure_invariants (codec : PayloadCodec) (fcodec : FailureCodec)
    (hdec : ∀ l, (codec.decode l).length = l.length)
    (henc : ∀ l, (codec.encode l).length = l.length)
    (act : WorkflowActivation) (comp : WorkflowActivationCompletion) :
    (decode_activation act codec fcodec).1.jobs.map Job.shape =
      act.jobs.map Job.shape ∧
    (decode_activation act codec fcodec).1.jobs.length = act.jobs.length ∧
    (decode_activation act codec fcodec).1.extra = act.extra ∧
    (decode_activation act codec fcodec).2.2 = none ∧
    CompletionStatus.shape (encode_completion comp codec fcodec).1.status =
      CompletionStatus.shape comp.status ∧
    (encode_completion comp codec fcodec).1.extra = comp.extra ∧
    (encode_completion comp codec fcodec).2.2 = none := by
  obtain ⟨jobs', hjobs, hshapes⟩ := decodeJobs_eq codec fcodec hdec act.jobs
  obtain ⟨st', hcomp, hshape⟩ := encode_completion_eq codec fcodec henc comp
  have hlen : jobs'.length = act.jobs.length := by
    have := congrArg List.length hshapes
    simpa using this
  refine ⟨?_, ?_, ?_, ?_, ?_, ?_, ?_⟩ <;>
    simp [decode_activation, hjobs, hcomp, hshapes, hshape, hlen]

/-- Witness for C4 with the identity codec at a concrete activation and
completion. -/
theorem C4_structure_invariants_witness :
    (decode_activation
      { jobs := [Job.signalWorkflow [samplePayloadA] 0,
                 Job.resolveActivity (Outcome.completed (some samplePayloadB)) 1],
        extra := 7 } idCodec idFailureCodec).1.jobs.map Job.shape =
      ([Job.signalWorkflow [samplePayloadA] 0,
        Job.resolveActivity (Outcome.completed (some samplePayloadB)) 1] :
        List Job).map Job.shape :=
  (C4_structure_invariants idCodec idFailureCodec (fun _ => rfl) (fun _ => rfl)
    { jobs := [Job.signalWorkflow [samplePayloadA] 0,
               Job.resolveActivity (Outcome.completed (some samplePayloadB)) 1],
      extra := 7 }
    { status := CompletionStatus.successful
        [Command.scheduleActivity [samplePayloadC] 2], extra := 3 }).1

/-- C5: under the codec contract, the codec invocations of
`decode_activation` and `encode_completion` occur in strict
left-to-right, depth-first order — jobs/commands in list order, and
within each variant in the order of the specification's per-variant
transformation table (`specJobCalls` / `specCommandCalls`, transcribed
from the spec).  Each awaited call completes before the next begins, so
the recorded trace is exactly this flattened sequence. -/
theorem C5_call_order (codec : PayloadCodec) (fcodec : FailureCodec)
    (hdec : ∀ l, (codec.decode l).length = l.length)
    (henc : ∀ l, (codec.encode l).length = l.length)
    (act : WorkflowActivation) (comp : WorkflowActivationCompletion) :
    (decode_activation act codec fcodec).2.1 =
      act.jobs.flatMap specJobCalls ∧
    (encode_completion comp codec fcodec).2.1 =
      specCompletionCalls comp.status := by
  obtain ⟨jobs', hjobs, _⟩ := decodeJobs_eq codec fcodec hdec act.jobs
  obtain ⟨st', hcomp, _⟩ := encode_completion_eq codec fcodec henc comp
  constructor
  · simp [decode_activation, hjobs]
  · simp [hcomp]

/-- Witness for C5 with the identity codec at a concrete activation and
completion. -/
theorem C5_call_order_witness :
    (decode_activation
      { jobs := [Job.cancelWorkflow [samplePayloadA, samplePayloadB] 0],
        extra := 1 } idCodec idFailureCodec).2.1 =
      ([Job.cancelWorkflow [samplePayloadA, samplePayloadB] 0] :
        List Job).flatMap specJobCalls :=
  (C5_call_order idCodec idFailureCodec (fun _ => rfl) (fun _ => rfl)
    { jobs := [Job.cancelWorkflow [samplePayloadA, samplePayloadB] 0],
      extra := 1 }
    { status := CompletionStatus.failed { info := 4 }, extra := 0 }).1

/-- C6 (Scenario A): for an activation with exactly two jobs — a
signal-workflow job with 3 input payloads and a start-workflow job with
a continued failure, no arguments and no memo — decoding produces
exactly two codec invocations: one payload-codec call carrying exactly
the 3 payloads in their original order, then one failure-codec call on
the continued failure (whose embedded payload the failure codec
transforms internally). -/
theorem C6_scenario_a (codec : PayloadCodec) (fcodec : FailureCodec)
    (p1 p2 p3 : BridgePayload) (f : Failure) (e1 e2 ea : Nat) :
    (decode_activation
      { jobs := [Job.signalWorkflow [p1, p2, p3] e1,
                 Job.startWorkflow [] (some f) [] e2], extra := ea }
      codec fcodec).2.1 =
      [CodecCall.payloadCall [from_bridge_payload p1, from_bridge_payload p2,
        from_bridge_payload p3],
       CodecCall.failureCall f] := by
  simp [decode_activation, decodeJobs, decodeJob, decodeBridgePayloads,
    applyToBridgePayloads, decodeMemo, from_bridge_payloads]

/-- C7: a payload sequence of length zero causes zero codec invocations
in either direction, and a resolve-activity job whose outcome is
`completed` with no result present causes zero codec invocations and is
left unchanged. -/
theorem C7_zero_calls (codec : PayloadCodec) (fcodec : FailureCodec)
    (e : Nat) :
    decodeBridgePayloads [] codec = ([], [], none) ∧
    encodeBridgePayloads [] codec = ([], [], none) ∧
    decodeJob (Job.resolveActivity (Outcome.completed none) e) codec fcodec =
      (Job.resolveActivity (Outcome.completed none) e, [], none) :=
  ⟨rfl, rfl, rfl⟩

/-- C8, counterexample: a policy whose optional maximum interval is
present but zero.  `retry_policy_to_proto` tests the field with Python
truthiness, so a present zero duration is written as absent, and the
round trip returns a different policy. -/
theorem C8_zero_max_interval_not_roundtrip :
    retry_policy_from_proto (retry_policy_to_proto
      { initial_interval := 1, backoff_coefficient := 2,
        maximum_interval := some 0, maximum_attempts := 3,
        non_retryable_error_types := [] } defaultProtoRetryPolicy) ≠
      { initial_interval := 1, backoff_coefficient := 2,
        maximum_interval := some 0, maximum_attempts := 3,
        non_retryable_error_types := [] } := by
  decide

/-- C8, amended: the wire round trip `retry_policy_from_proto ∘
retry_policy_to_proto` (into a fresh wire message) is the identity for
every policy whose maximum interval is not a present zero duration — an
absent maximum interval maps to absent and an empty non-retryable-error
list to empty on each side; a present zero maximum interval, however,
is collapsed to absent by the truthiness test. -/
theorem C8_roundtrip (p : RetryPolicy) (h : p.maximum_interval ≠ some 0) :
    retry_policy_from_proto (retry_policy_to_proto p defaultProtoRetryPolicy) =
      p := by
  obtain ⟨ii, bc, mi, ma, nr⟩ := p
  cases mi with
  | none =>
      by_cases hnr : nr = [] <;>
        simp [retry_policy_to_proto, retry_policy_from_proto,
          defaultProtoRetryPolicy, hnr]
  | some d =>
      have hd : ¬ d = 0 := by
        intro h0
        exact h (by simp [h0])
      by_cases hnr : nr = [] <;>
        simp [retry_policy_to_proto, retry_policy_from_proto,
          defaultProtoRetryPolicy, hd, hnr]

/-- Witness for C8 at a concrete policy with an absent maximum
interval. -/
theorem C8_roundtrip_witness :
    ({ initial_interval := 5, backoff_coefficient := 2,
       maximum_interval := none, maximum_attempts := 4,
       non_retryable_error_types := ["x"] } : RetryPolicy).maximum_interval ≠
      some 0 ∧
    retry_policy_from_proto (retry_policy_to_proto
      { initial_interval := 5, backoff_coefficient := 2,
        maximum_interval := none, maximum_attempts := 4,
        non_retryable_error_types := ["x"] } defaultProtoRetryPolicy) =
      { initial_interval := 5, backoff_coefficient := 2,
        maximum_interval := none, maximum_attempts := 4,
        non_retryable_error_types := ["x"] } :=
  ⟨by decide, C8_roundtrip _ (by decide)⟩

/-- C9: a job whose set variant is outside the nine matched ones, a
command outside the eight matched ones, and a completion whose top
level is neither `failed` nor `successful` are each left entirely
unchanged, with zero codec invocations and no error. -/
theorem C9_unrecognized_no_action (codec : PayloadCodec)
    (fcodec : FailureCodec) (jtag ctag utag extra : Nat) :
    decodeJob (Job.other jtag) codec fcodec = (Job.other jtag, [], none) ∧
    encodeCommand (Command.other ctag) codec fcodec =
      (Command.other ctag, [], none) ∧
    encode_completion { status := CompletionStatus.unset utag, extra := extra }
      codec fcodec =
      ({ status := CompletionStatus.unset utag, extra := extra }, [], none) :=
  ⟨rfl, rfl, rfl⟩

/-- C10: `from_bridge_payload` and `to_bridge_payload` are mutually
inverse (metadata mapping and data blob preserved), and the plural
versions extend them element-wise, preserving length and order. -/
theorem C10_payload_roundtrip (p : ApiPayload) (q : BridgePayload)
    (ps : List ApiPayload) (qs : List BridgePayload) :
    from_bridge_payload (to_bridge_payload p) = p ∧
    to_bridge_payload (from_bridge_payload q) = q ∧
    from_bridge_payloads (to_bridge_payloads ps) = ps ∧
    to_bridge_payloads (from_bridge_payloads qs) = qs ∧
    (from_bridge_payloads qs).length = qs.length ∧
    (to_bridge_payloads ps).length = ps.length ∧
    (∀ i : Nat, (from_bridge_payloads qs)[i]? =
      (qs[i]?).map from_bridge_payload) ∧
    (∀ i : Nat, (to_bridge_payloads ps)[i]? =
      (ps[i]?).map to_bridge_payload) := by
  have h1 : ∀ x : ApiPayload, from_bridge_payload (to_bridge_payload x) = x :=
    fun _ => rfl
  have h2 : ∀ x : BridgePayload, to_bridge_payload (from_bridge_payload x) = x :=
    fun _ => rfl
  have hc1 : from_bridge_payload ∘ to_bridge_payload = id := funext h1
  have hc2 : to_bridge_payload ∘ from_bridge_payload = id := funext h2
  refine ⟨rfl, rfl, ?_, ?_, ?_, ?_, ?_, ?_⟩ <;>
    simp [from_bridge_payloads, to_bridge_payloads, hc1, hc2]
